import Mathlib

/-
Verification of the FinCraft portfolio/profit-loss accounting engine.

This file is a shallow embedding, in Lean 4, of the accounting core of the
FinCraft web application:

  * the Trade document schema and its mongoose validation/uppercasing
    (models/Trade.js: tradeSchema, tradeSchema.statics.getUserPortfolio);
  * the trade-creation endpoints POST /trades/simulate (routes/trades.js)
    and POST /stocks/:symbol/trade (routes/stocks.js), including the
    insufficient-shares check and the two profit/loss computations;
  * the portfolio aggregation fold of GET /api/portfolio and its
    per-symbol quote fan-out (routes/api.js);
  * the analytics winRate computation (utils/analytics.js);
  * DELETE /trades/:id (routes/trades.js).

Conventions of the embedding:

  * JavaScript numbers are modelled as rationals (ℚ).  Where JavaScript
    would produce Infinity or NaN by dividing by zero, the rational model
    yields 0 (Lean's division-by-zero convention); all theorems below
    avoid relying on the value of such a division except where noted.
  * MongoDB documents are lists of `Trade` values; a query with a filter
    becomes `List.filter`, `.sort({tradeDate: 1})` becomes a stable
    insertion sort on the `tradeDate` field.
  * `parseInt` applied to a positive numeric value is truncation (floor).
  * Asynchronous calls to the quote provider are a function
    `String → Option ℚ`: `some price` for a successful lookup and `none`
    for a failed one.
-/

namespace FinCraft

/-- Embedding of JavaScript's `String.prototype.toUpperCase` for ASCII
data (stock tickers and the BUY/SELL action strings), mapping
`Char.toUpper` over the characters of the string. -/
def jsToUpper (s : String) : String := ⟨s.data.map Char.toUpper⟩

/-- One document of the `Trade` mongoose collection (models/Trade.js,
tradeSchema).  `tid` stands for the Mongo `_id`; `tradeDate` is the
timestamp used for ordering and windowing. -/
structure Trade where
  tid : Nat
  symbol : String
  companyName : String
  type : String
  quantity : ℚ
  price : ℚ
  totalAmount : ℚ
  tradeDate : Int
  buyPrice : ℚ
  sellPrice : ℚ
  profitLoss : ℚ
  profitLossPercentage : ℚ
deriving DecidableEq, Repr

/-- Error outcomes of the trade routes. -/
inductive TradeError where
  | invalidParams
  | insufficientShares (owned : ℚ)
  | validationFailed
  | notFound
deriving DecidableEq, Repr

/-- The validation mongoose runs on `save()` against tradeSchema:
`type` must be in the enum `['BUY', 'SELL']`, `quantity` has `min: 1`,
`price` and `totalAmount` have `min: 0`, and the required string fields
must be nonempty. -/
def schemaValidate (t : Trade) : Bool :=
  (t.type = "BUY" || t.type = "SELL") && decide (1 ≤ t.quantity) &&
    decide (0 ≤ t.price) && decide (0 ≤ t.totalAmount) &&
    !(t.symbol = "") && !(t.companyName = "")

/-- `new Trade(data); await trade.save()`: the schema's `uppercase: true`
setter is applied to `symbol`, then validation runs; `none` models a
rejected save (mongoose ValidationError). -/
def mongooseSave (t : Trade) : Option Trade :=
  if schemaValidate { t with symbol := jsToUpper t.symbol } then
    some { t with symbol := jsToUpper t.symbol }
  else none

/-- Net held shares for one symbol, as computed inline by
POST /trades/simulate (routes/trades.js lines 153-167): sum of BUY
quantities minus sum of SELL quantities over the user's trades for that
symbol. -/
def netShares (trades : List Trade) (symbol : String) : ℚ :=
  (trades.filter (fun t => t.symbol = symbol)).foldl
    (fun acc t =>
      if t.type = "BUY" then acc + t.quantity
      else if t.type = "SELL" then acc - t.quantity
      else acc) 0

/-- Mongoose `.sort({ tradeDate: 1 })` (ascending trade date, stable). -/
def sortAscByDate (l : List Trade) : List Trade :=
  l.insertionSort (fun a b => a.tradeDate ≤ b.tradeDate)

/-- Mongoose `.sort({ tradeDate: -1 })` (descending trade date, stable),
as used by tradeSchema.statics.getUserPortfolio. -/
def sortDescByDate (l : List Trade) : List Trade :=
  l.insertionSort (fun a b => b.tradeDate ≤ a.tradeDate)

/-- The FIFO walk of POST /stocks/:symbol/trade (SELL branch):
`for (const buyTrade of buyTrades) { if (remainingShares <= 0) break;
const sharesToUse = Math.min(remainingShares, buyTrade.quantity);
totalCost += sharesToUse * buyTrade.price; remainingShares -= sharesToUse; }` -/
def fifoCost (buys : List Trade) (remainingShares totalCost : ℚ) : ℚ :=
  match buys with
  | [] => totalCost
  | lot :: rest =>
      if remainingShares ≤ 0 then totalCost
      else
        let sharesToUse := min remainingShares lot.quantity
        fifoCost rest (remainingShares - sharesToUse)
          (totalCost + sharesToUse * lot.price)

/-- Matched cost of a SELL of `q` shares in POST /stocks/:symbol/trade:
the FIFO walk over ALL of the user's BUY trades for the symbol, sorted by
ascending trade date (the query is `Trade.find({userId, symbol,
type:'BUY'}).sort({tradeDate: 1})`; no BUY quantity is ever marked as
consumed by earlier SELLs). -/
def fifoTotalCost (trades : List Trade) (symbol : String) (q : ℚ) : ℚ :=
  fifoCost
    (sortAscByDate (trades.filter (fun t => t.symbol = symbol ∧ t.type = "BUY")))
    q 0

/-- The realized profit/loss POST /stocks/:symbol/trade stores on a SELL
of `q` shares at price `p`: `avgBuyPrice = totalCost / q;
profitLoss = (p - avgBuyPrice) * q`. -/
def sellProfitLoss (trades : List Trade) (symbol : String) (q p : ℚ) : ℚ :=
  (p - fifoTotalCost trades symbol q / q) * q

/-- POST /stocks/:symbol/trade (routes/stocks.js lines 353-439).
Arguments: the user's stored trades, the raw `:symbol` route parameter,
the request's `type` and `quantity`, the company `profile.name` returned
by the quote provider, the current quote price, the clock and a fresh id.
The route uppercases the symbol, validates `!type || !quantity ||
quantity <= 0`, truncates the quantity with `parseInt`, computes the FIFO
profit/loss for SELLs, and saves.  There is no insufficient-shares check
anywhere on this path.  `stockPre` is the `new Trade({...})` document
the route builds before saving (SELL trades get the FIFO     
buyPrice/profitLoss fields); `stockTrade` is the whole route. -/
def stockPre (trades : List Trade) (symbolRaw typeRaw : String)
    (rawQuantity : ℚ) (profileName : String) (currentPrice : ℚ)
    (now : Int) (newId : Nat) : Trade :=
  let symbol := jsToUpper symbolRaw
  let qty : ℚ := ((⌊rawQuantity⌋ : ℤ) : ℚ)
  let ttype := jsToUpper typeRaw
  let totalAmount := currentPrice * qty
  let base : Trade :=
    { tid := newId, symbol := symbol
      companyName := if profileName = "" then symbol else profileName
      type := ttype, quantity := qty, price := currentPrice
      totalAmount := totalAmount, tradeDate := now
      buyPrice := 0, sellPrice := 0, profitLoss := 0
      profitLossPercentage := 0 }
  if ttype = "SELL" then
    let totalCost := fifoTotalCost trades symbol qty
    let avgBuyPrice := totalCost / qty
    { base with
        buyPrice := avgBuyPrice, sellPrice := currentPrice
        profitLoss := (currentPrice - avgBuyPrice) * qty
        profitLossPercentage := (currentPrice - avgBuyPrice) / avgBuyPrice * 100 }
  else base

def stockTrade (trades : List Trade) (symbolRaw typeRaw : String)
    (rawQuantity : ℚ) (profileName : String) (currentPrice : ℚ)
    (now : Int) (newId : Nat) : Except TradeError (List Trade × Trade) :=
  if typeRaw = "" ∨ rawQuantity ≤ 0 then .error .invalidParams
  else
    match mongooseSave (stockPre trades symbolRaw typeRaw rawQuantity
        profileName currentPrice now newId) with
    | some t' => .ok (trades ++ [t'], t')
    | none => .error .validationFailed

/-- POST /trades/simulate (routes/trades.js lines 127-239).
Arguments: the user's stored trades, the request's `symbol`, `action`,
parsed `quantity` (`parseInt`) and `price` (`parseFloat`), the optional
`companyName`, the clock and a fresh id.  The route validates, and for a
SELL first rejects with the insufficient-shares error when
`netShares < qty`; only then does it compute a profit/loss as
`(price - totalCost/totalShares) * qty` over ALL BUY trades for the
symbol (a plain weighted average, not a FIFO walk), and saves.
`simulatePre` is the `tradeData` document the route builds before
saving; `simulateTrade` is the whole route. -/
def simulatePre (trades : List Trade) (symbolRaw actionRaw : String)
    (qty : Int) (tradePrice : ℚ) (companyNameReq : String)
    (now : Int) (newId : Nat) : Trade :=
  let action := jsToUpper actionRaw
  let symbol := jsToUpper symbolRaw
  let profitLoss :=
    if action = "SELL" then
      let buyTrades :=
        sortAscByDate
          (trades.filter (fun t => t.symbol = symbol ∧ t.type = "BUY"))
      let totalCost :=
        buyTrades.foldl (fun acc t => acc + t.price * t.quantity) 0
      let totalShares := buyTrades.foldl (fun acc t => acc + t.quantity) 0
      if 0 < totalShares then
        (tradePrice - totalCost / totalShares) * (qty : ℚ)
      else 0
    else 0
  { tid := newId, symbol := symbol
    companyName := if companyNameReq = "" then symbol else companyNameReq
    type := action, quantity := (qty : ℚ), price := tradePrice
    totalAmount := (qty : ℚ) * tradePrice, tradeDate := now
    buyPrice := 0, sellPrice := 0, profitLoss := profitLoss
    profitLossPercentage :=
      if 0 < tradePrice then profitLoss / (tradePrice * (qty : ℚ)) * 100
      else 0 }

def simulateTrade (trades : List Trade) (symbolRaw actionRaw : String)
    (qty : Int) (tradePrice : ℚ) (companyNameReq : String)
    (now : Int) (newId : Nat) : Except TradeError (List Trade × Trade) :=
  if symbolRaw = "" ∨ actionRaw = "" ∨ qty ≤ 0 ∨ tradePrice ≤ 0 then
    .error .invalidParams
  else
    if jsToUpper actionRaw = "SELL" ∧
        netShares trades (jsToUpper symbolRaw) < (qty : ℚ) then
      .error (.insufficientShares (netShares trades (jsToUpper symbolRaw)))
    else
      match mongooseSave (simulatePre trades symbolRaw actionRaw qty
          tradePrice companyNameReq now newId) with
      | some t' => .ok (trades ++ [t'], t')
      | none => .error .validationFailed

/-- One entry of the object built by
tradeSchema.statics.getUserPortfolio (models/Trade.js lines 94-134). -/
structure PortfolioPosition where
  symbol : String
  companyName : String
  totalQuantity : ℚ
  totalInvestment : ℚ
  avgPrice : ℚ
deriving DecidableEq, Repr

/-- Fresh portfolio entry for a symbol first seen on `trade`. -/
def initPos (trade : Trade) : PortfolioPosition :=
  { symbol := trade.symbol, companyName := trade.companyName
    totalQuantity := 0, totalInvestment := 0, avgPrice := 0 }

/-- The per-trade update of getUserPortfolio: BUY adds `quantity` and
`totalAmount`; any other type subtracts `quantity` and subtracts
`quantity * avgPrice` (the avgPrice held before this trade); then
`avgPrice` is recomputed as `totalInvestment / totalQuantity` only when
`totalQuantity > 0` (otherwise it keeps its previous value). -/
def updatePos (p : PortfolioPosition) (trade : Trade) : PortfolioPosition :=
  let p1 :=
    if trade.type = "BUY" then
      { p with totalQuantity := p.totalQuantity + trade.quantity
               totalInvestment := p.totalInvestment + trade.totalAmount }
    else
      { p with totalQuantity := p.totalQuantity - trade.quantity
               totalInvestment :=
                 p.totalInvestment - trade.quantity * p.avgPrice }
  if 0 < p1.totalQuantity then
    { p1 with avgPrice := p1.totalInvestment / p1.totalQuantity }
  else p1

/-- One `trades.forEach` step of getUserPortfolio: look the symbol up in
the (insertion-ordered) portfolio object, creating the entry on first
sight, then apply `updatePos`. -/
def stepPortfolio (acc : List PortfolioPosition) (trade : Trade) :
    List PortfolioPosition :=
  if acc.any (fun p => p.symbol = trade.symbol) then
    acc.map (fun p => if p.symbol = trade.symbol then updatePos p trade else p)
  else
    acc ++ [updatePos (initPos trade) trade]

/-- The grouping fold of getUserPortfolio.  The trades are fetched with
`.sort({ tradeDate: -1 })`, so the fold processes them newest-first. -/
def getUserPortfolioFold (trades : List Trade) : List PortfolioPosition :=
  (sortDescByDate trades).foldl stepPortfolio []

/-- tradeSchema.statics.getUserPortfolio: the fold above followed by
`Object.values(portfolio).filter(pos => pos.totalQuantity > 0)`. -/
def getUserPortfolioImpl (trades : List Trade) : List PortfolioPosition :=
  (getUserPortfolioFold trades).filter (fun p => decide (0 < p.totalQuantity))

/-- Reference aggregation for the spec's ordering requirement: the very
same per-trade fold, but over the trades sorted by ASCENDING trade date,
as §4.2 of the spec demands for cost-basis computation. -/
def getUserPortfolioAscRef (trades : List Trade) : List PortfolioPosition :=
  ((sortAscByDate trades).foldl stepPortfolio []).filter
    (fun p => decide (0 < p.totalQuantity))

/-- Net signed quantity of a symbol under getUserPortfolio's convention
(BUY adds, anything else subtracts), written as an order-independent
sum. -/
def netQuantity (trades : List Trade) (symbol : String) : ℚ :=
  ((trades.filter (fun t => t.symbol = symbol)).map
    (fun t => if t.type = "BUY" then t.quantity else -t.quantity)).sum

/-- One entry of the `positions` object of GET /api/portfolio
(routes/api.js lines 641-669). -/
structure ApiPosition where
  symbol : String
  quantity : ℚ
  totalCost : ℚ
  averagePrice : ℚ
deriving DecidableEq, Repr

/-- The per-trade step of the GET /api/portfolio fold.  BUY adds
`quantity` and `quantity * price` to the position; any other type only
subtracts `quantity` (totalCost is NOT touched) and adds
`(price - averagePrice) * quantity` to the running realized profit;
afterwards `averagePrice` is recomputed only when `quantity > 0`. -/
def apiStep (state : List ApiPosition × ℚ) (t : Trade) :
    List ApiPosition × ℚ :=
  let pOld :=
    (state.1.find? (fun p => p.symbol = t.symbol)).getD
      { symbol := t.symbol, quantity := 0, totalCost := 0, averagePrice := 0 }
  let p1 :=
    if t.type = "BUY" then
      { pOld with quantity := pOld.quantity + t.quantity
                  totalCost := pOld.totalCost + t.quantity * t.price }
    else
      { pOld with quantity := pOld.quantity - t.quantity }
  let pNew :=
    if 0 < p1.quantity then
      { p1 with averagePrice := p1.totalCost / p1.quantity }
    else p1
  let profitDelta :=
    if t.type = "BUY" then 0 else (t.price - pOld.averagePrice) * t.quantity
  let positions :=
    if state.1.any (fun p => p.symbol = t.symbol) then
      state.1.map (fun p => if p.symbol = t.symbol then pNew else p)
    else state.1 ++ [pNew]
  (positions, state.2 + profitDelta)

/-- The position-building fold of GET /api/portfolio.  The query
`Trade.find({userId})` carries no sort, so the trades are processed in
store order.  Returns the positions and the realized `totalProfit`. -/
def apiFold (trades : List Trade) : List ApiPosition × ℚ :=
  trades.foldl apiStep ([], 0)

/-- One entry of `activePositions` in GET /api/portfolio: a position
with quantity > 0 whose quote lookup succeeded. -/
structure ActivePosition where
  symbol : String
  quantity : ℚ
  totalCost : ℚ
  averagePrice : ℚ
  currentPrice : ℚ
  currentValue : ℚ
  unrealizedProfit : ℚ
  unrealizedProfitPercent : ℚ
deriving DecidableEq, Repr

/-- The quote loop of GET /api/portfolio (lines 672-691): for each
position with `quantity > 0`, try the quote provider; on success push an
active position; on failure (`catch`) only log — the position is
silently skipped. -/
def buildActive (quote : String → Option ℚ) :
    List ApiPosition → List ActivePosition
  | [] => []
  | p :: ps =>
      if 0 < p.quantity then
        match quote p.symbol with
        | some c =>
            { symbol := p.symbol, quantity := p.quantity
              totalCost := p.totalCost, averagePrice := p.averagePrice
              currentPrice := c, currentValue := p.quantity * c
              unrealizedProfit := p.quantity * c - p.totalCost
              unrealizedProfitPercent :=
                (p.quantity * c - p.totalCost) / p.totalCost * 100 } ::
              buildActive quote ps
        | none => buildActive quote ps
      else buildActive quote ps

/-- The JSON payload of GET /api/portfolio. -/
structure ApiPortfolioData where
  totalProfit : ℚ
  realizedProfit : ℚ
  unrealizedProfit : ℚ
  totalCurrentValue : ℚ
  totalInvested : ℚ
  positions : List ActivePosition
  totalTrades : Nat
deriving DecidableEq, Repr

/-- GET /api/portfolio (routes/api.js lines 629-715): fold the trades
into positions and realized profit, fan the quote provider out over the
active positions, and total the results. -/
def apiPortfolioRoute (trades : List Trade) (quote : String → Option ℚ) :
    ApiPortfolioData :=
  let fold := apiFold trades
  let activePositions := buildActive quote fold.1
  let totalUnrealized :=
    activePositions.foldl (fun acc p => acc + p.unrealizedProfit) 0
  let totalCurrentValue :=
    activePositions.foldl (fun acc p => acc + p.currentValue) 0
  let totalInvested :=
    activePositions.foldl (fun acc p => acc + p.totalCost) 0
  { totalProfit := fold.2 + totalUnrealized
    realizedProfit := fold.2
    unrealizedProfit := totalUnrealized
    totalCurrentValue := totalCurrentValue
    totalInvested := totalInvested
    positions := activePositions
    totalTrades := trades.length }

/-- The accumulator of analytics.calculateProfitLoss
(utils/analytics.js lines 35-57). -/
structure ProfitLossStats where
  totalProfit : ℚ
  totalLoss : ℚ
  netProfit : ℚ
  totalInvestment : ℚ
  totalTrades : Nat
  winningTrades : Nat
  losingTrades : Nat
  winRate : ℚ
  profitMargin : ℚ
deriving DecidableEq, Repr

/-- The `tradeDate: { $gte: startDate, $lte: endDate }` query filter of
analytics.calculateProfitLoss. -/
def windowFilter (trades : List Trade) (startDate endDate : Int) : List Trade :=
  trades.filter
    (fun t => decide (startDate ≤ t.tradeDate) && decide (t.tradeDate ≤ endDate))

/-- One `trades.forEach` step of analytics.calculateProfitLoss; the
accumulator is (totalProfit, totalLoss, totalInvestment, winningTrades,
losingTrades). -/
def plStep (a : ℚ × ℚ × ℚ × Nat × Nat) (t : Trade) : ℚ × ℚ × ℚ × Nat × Nat :=
  let (totalProfit, totalLoss, totalInvestment, winning, losing) := a
  if t.type = "BUY" then
    (totalProfit, totalLoss, totalInvestment + t.totalAmount, winning, losing)
  else if t.type = "SELL" then
    if (0 : ℚ) < t.profitLoss then
      (totalProfit + t.profitLoss, totalLoss, totalInvestment,
       winning + 1, losing)
    else
      (totalProfit, totalLoss + |t.profitLoss|, totalInvestment,
       winning, losing + 1)
  else a

/-- analytics.calculateProfitLoss: filter the user's trades to the
requested window, then accumulate.  BUYs add to `totalInvestment`;
SELLs with `profitLoss > 0` count as winning, all other SELLs as losing.
`winRate = winningTrades / totalTrades * 100` with `totalTrades` the
number of ALL trades in the window (`trades.length`), guarded to 0 when
there are none. -/
def calculateProfitLossStats (trades : List Trade)
    (startDate endDate : Int) : ProfitLossStats :=
  let ts := windowFilter trades startDate endDate
  let acc := ts.foldl plStep (0, 0, 0, 0, 0)
  let (totalProfit, totalLoss, totalInvestment, winning, losing) := acc
  { totalProfit := totalProfit
    totalLoss := totalLoss
    netProfit := totalProfit - totalLoss
    totalInvestment := totalInvestment
    totalTrades := ts.length
    winningTrades := winning
    losingTrades := losing
    winRate :=
      if 0 < ts.length then ((winning : ℚ) / (ts.length : ℚ)) * 100 else 0
    profitMargin :=
      if 0 < totalInvestment then
        (totalProfit - totalLoss) / totalInvestment * 100
      else 0 }

/-- DELETE /trades/:id (routes/trades.js lines 268-307): look the trade
up by id; 404 when absent; otherwise `findByIdAndDelete` removes it.
Nothing else is touched — no sibling trade's profitLoss is recomputed
and the deletion is never refused for accounting reasons. -/
def deleteTrade (trades : List Trade) (id : Nat) :
    Except TradeError (List Trade) :=
  if trades.any (fun t => t.tid = id) then
    .ok (trades.filter (fun t => !(t.tid = id)))
  else .error .notFound

/-- Modelled from the spec (§4.1 contract, quoted by claim C2): a BUY
lot is a pair (price, remainingQuantity); an earlier SELL consumes lots
oldest-first, decrementing their remaining quantities. -/
def consumeLots (lots : List (ℚ × ℚ)) (q : ℚ) : List (ℚ × ℚ) :=
  match lots with
  | [] => []
  | (p, r) :: rest =>
      if q ≤ 0 then (p, r) :: rest
      else if q < r then (p, r - q) :: rest
      else consumeLots rest (q - r)

/-- Modelled from the spec (§4.1, claim C2): one step of the lot
history — a BUY appends a fresh lot, a SELL consumes FIFO. -/
def lotStep (lots : List (ℚ × ℚ)) (t : Trade) : List (ℚ × ℚ) :=
  if t.type = "BUY" then lots ++ [(t.price, t.quantity)]
  else if t.type = "SELL" then consumeLots lots t.quantity
  else lots

/-- Modelled from the spec (§4.1, claim C2): the BUY lots for a symbol
that have not yet been consumed by earlier SELLs, obtained by walking
the symbol's trades in ascending trade-date order, appending a lot for
each BUY and consuming FIFO for each SELL. -/
def remainingLots (trades : List Trade) (symbol : String) : List (ℚ × ℚ) :=
  (sortAscByDate (trades.filter (fun t => t.symbol = symbol))).foldl lotStep []

/-- Modelled from the spec (§4.1, claim C2): the FIFO matched cost of a
sell of `q` shares against a list of (price, remainingQuantity) lots:
`sharesToUse = min(remainingToSell, lot.remainingQuantity)`. -/
def matchCost (lots : List (ℚ × ℚ)) (remainingToSell totalCost : ℚ) : ℚ :=
  match lots with
  | [] => totalCost
  | (p, r) :: rest =>
      if remainingToSell ≤ 0 then totalCost
      else
        let sharesToUse := min remainingToSell r
        matchCost rest (remainingToSell - sharesToUse)
          (totalCost + sharesToUse * p)

/-- Modelled from the spec (§4.1, claim C2): the realized P/L the claim
prescribes for a SELL of `q` at price `p`: FIFO matching against only
the not-yet-consumed BUY lots, and `(p − totalCost/q) × q`. -/
def claimSellPL (trades : List Trade) (symbol : String) (q p : ℚ) : ℚ :=
  (p - matchCost (remainingLots trades symbol) q 0 / q) * q

/-- Modelled from the spec (§4.3, claim C6): `winRate` = count(SELL
trades in window with profitLoss > 0) / count(SELL trades in window)
× 100, defined as 0 when the denominator is 0. -/
def specWinRate (trades : List Trade) (startDate endDate : Int) : ℚ :=
  let sells :=
    (windowFilter trades startDate endDate).filter (fun t => t.type = "SELL")
  if sells.length = 0 then 0
  else
    ((sells.filter (fun t => decide ((0 : ℚ) < t.profitLoss))).length : ℚ) /
      (sells.length : ℚ) * 100

/-- A quote provider that fails for the single symbol `s` and behaves
like `quote` everywhere else. -/
def failAt (s : String) (quote : String → Option ℚ) : String → Option ℚ :=
  fun x => if x = s then none else quote x

/-! ### Concrete trade histories used by the claims

The spec's own FIFO example (§8): BUY 10 @ $10, then BUY 10 @ $20, then
SELL 15 @ $30, with strictly increasing trade dates. -/

def buyA1 : Trade :=
  { tid := 1, symbol := "AAPL", companyName := "Apple Inc.", type := "BUY"
    quantity := 10, price := 10, totalAmount := 100, tradeDate := 1
    buyPrice := 0, sellPrice := 0, profitLoss := 0, profitLossPercentage := 0 }

def buyA2 : Trade :=
  { tid := 2, symbol := "AAPL", companyName := "Apple Inc.", type := "BUY"
    quantity := 10, price := 20, totalAmount := 200, tradeDate := 2
    buyPrice := 0, sellPrice := 0, profitLoss := 0, profitLossPercentage := 0 }

/-- The SELL record POST /stocks/:symbol/trade creates for a sell of 15
shares at $30 after `buyA1` and `buyA2`: matched cost 200, average buy
price 200/15 = 40/3, profitLoss (30 − 40/3)·15 = 250. -/
def sellA3 : Trade :=
  { tid := 3, symbol := "AAPL", companyName := "Apple Inc.", type := "SELL"
    quantity := 15, price := 30, totalAmount := 450, tradeDate := 3
    buyPrice := 40/3, sellPrice := 30, profitLoss := 250
    profitLossPercentage := 125 }

/-- SELL 10 @ $20 on date 2, fully consuming `buyA1`; its stored
profitLoss 100 is what the FIFO matcher computes against `buyA1`. -/
def sellB2 : Trade :=
  { tid := 2, symbol := "AAPL", companyName := "Apple Inc.", type := "SELL"
    quantity := 10, price := 20, totalAmount := 200, tradeDate := 2
    buyPrice := 10, sellPrice := 20, profitLoss := 100
    profitLossPercentage := 100 }

def buyC3 : Trade :=
  { tid := 3, symbol := "AAPL", companyName := "Apple Inc.", type := "BUY"
    quantity := 10, price := 30, totalAmount := 300, tradeDate := 3
    buyPrice := 0, sellPrice := 0, profitLoss := 0, profitLossPercentage := 0 }

/-- SELL 5 @ $30 on date 2 (half of the `buyA1` holding). -/
def sellHalf5 : Trade :=
  { tid := 2, symbol := "AAPL", companyName := "Apple Inc.", type := "SELL"
    quantity := 5, price := 30, totalAmount := 150, tradeDate := 2
    buyPrice := 10, sellPrice := 30, profitLoss := 100
    profitLossPercentage := 200 }

def buyM2 : Trade :=
  { tid := 2, symbol := "MSFT", companyName := "Microsoft", type := "BUY"
    quantity := 10, price := 10, totalAmount := 100, tradeDate := 2
    buyPrice := 0, sellPrice := 0, profitLoss := 0, profitLossPercentage := 0 }

/-- A lone SELL of 5 shares with no BUY history: the record the
uncheckd stock-trade route stores (its rational profitLossPercentage is
0 where JavaScript would produce Infinity from the division by the zero
average buy price). -/
def oversoldSell : Trade :=
  { tid := 1, symbol := "AAPL", companyName := "Apple Inc.", type := "SELL"
    quantity := 5, price := 10, totalAmount := 50, tradeDate := 1
    buyPrice := 0, sellPrice := 10, profitLoss := 50
    profitLossPercentage := 0 }

/-- The demo quote provider for claim C7: AAPL quotes at $12, every
other symbol fails. -/
def demoQuote : String → Option ℚ :=
  fun s => if s = "AAPL" then some 12 else none

/-- The position held before `sellHalf5` in claim C5's witness:
10 shares at average cost $10. -/
def posB4 : PortfolioPosition :=
  { symbol := "AAPL", companyName := "Apple Inc.", totalQuantity := 10
    totalInvestment := 100, avgPrice := 10 }

/-- The record POST /trades/simulate stores for a BUY of 3 shares of
"aapl" at $5 (symbol uppercased, profitLoss 0). -/
def simBuy3 : Trade :=
  { tid := 1, symbol := "AAPL", companyName := "Apple", type := "BUY"
    quantity := 3, price := 5, totalAmount := 15, tradeDate := 7
    buyPrice := 0, sellPrice := 0, profitLoss := 0, profitLossPercentage := 0 }

/-- The record POST /stocks/:symbol/trade stores for a BUY with raw
quantity 5/2 of "msft" quoted at $4: parseInt truncates to 2 shares. -/
def stockBuy2 : Trade :=
  { tid := 2, symbol := "MSFT", companyName := "Microsoft", type := "BUY"
    quantity := 2, price := 4, totalAmount := 8, tradeDate := 9
    buyPrice := 0, sellPrice := 0, profitLoss := 0, profitLossPercentage := 0 }

/-- The schema invariant of claim C10 for a stored Trade record: the
symbol is uppercase (a fixed point of uppercasing), the quantity is an
integer of at least 1, the type is exactly BUY or SELL, and a BUY
carries profitLoss 0. -/
def tradeInvariant (t : Trade) : Prop :=
  jsToUpper t.symbol = t.symbol ∧
  (∃ n : ℤ, t.quantity = (n : ℚ) ∧ 1 ≤ n) ∧
  (t.type = "BUY" ∨ t.type = "SELL") ∧
  (t.type = "BUY" → t.profitLoss = 0)

/-! ### Helper lemmas -/

theorem toNat_ofNat_of_valid {m : Nat} (hv : m.isValidChar) :
    (Char.ofNat m).toNat = m := by
  unfold Char.ofNat
  simp only [hv, dif_pos]
  rfl

theorem toNat_toUpper (c : Char) :
    (Char.toUpper c).toNat =
      if c.toNat ≥ 97 ∧ c.toNat ≤ 122 then c.toNat - 32 else c.toNat := by
  unfold Char.toUpper
  by_cases h : c.toNat ≥ 97 ∧ c.toNat ≤ 122
  · rw [if_pos h, if_pos h, toNat_ofNat_of_valid (by left; omega)]
  · rw [if_neg h, if_neg h]

theorem toUpper_eq_self_of_not_lower (d : Char)
    (h : ¬(d.toNat ≥ 97 ∧ d.toNat ≤ 122)) : Char.toUpper d = d := by
  unfold Char.toUpper
  rw [if_neg h]

theorem char_toUpper_idem (c : Char) :
    Char.toUpper (Char.toUpper c) = Char.toUpper c := by
  apply toUpper_eq_self_of_not_lower
  rw [toNat_toUpper c]
  by_cases h : c.toNat ≥ 97 ∧ c.toNat ≤ 122
  · rw [if_pos h]; omega
  · rw [if_neg h]; omega

theorem jsToUpper_idem (s : String) : jsToUpper (jsToUpper s) = jsToUpper s := by
  unfold jsToUpper
  cases s with
  | mk data =>
      simp only [List.map_map]
      congr 1
      apply List.map_congr_left
      intro c _
      exact char_toUpper_idem c

theorem jsToUpper_aapl : jsToUpper "AAPL" = "AAPL" := by decide

theorem jsToUpper_sell_lower : jsToUpper "sell" = "SELL" := by decide

theorem jsToUpper_sell_upper : jsToUpper "SELL" = "SELL" := by decide

theorem jsToUpper_buy_lower : jsToUpper "buy" = "BUY" := by decide

theorem jsToUpper_aapl_lower : jsToUpper "aapl" = "AAPL" := by decide

theorem jsToUpper_msft_lower : jsToUpper "msft" = "MSFT" := by decide

theorem jsToUpper_msft : jsToUpper "MSFT" = "MSFT" := by decide

/-- Claim C1: a SELL whose quantity exceeds the net held quantity is
always rejected with InsufficientShares before any P/L work, creating no
Trade.  The code violates this: POST /stocks/:symbol/trade performs no
insufficient-shares check at all.  Evaluated at the failing input — a
user with no trades sells 5 shares of AAPL at $10 through that route —
the operation succeeds, stores a SELL record, and even computes a
profit/loss of (10 − 0) × 5 = 50 from the empty BUY history, although
the net held quantity 0 is smaller than 5.  (POST /trades/simulate does
perform the check; the claim quantifies over every SELL request.) -/
theorem c1_stockTrade_oversell_accepted :
    netShares [] "AAPL" = 0 ∧ (0 : ℚ) < 5 ∧
    stockTrade [] "AAPL" "sell" 5 "Apple Inc." 10 1 1 =
      .ok ([oversoldSell], oversoldSell) ∧
    oversoldSell.type = "SELL" ∧ oversoldSell.profitLoss = 50 := by
  refine ⟨rfl, by norm_num, ?_, rfl, by norm_num [oversoldSell]⟩
  norm_num [stockTrade, stockPre, fifoTotalCost, fifoCost, sortAscByDate,
    List.insertionSort, mongooseSave, schemaValidate, jsToUpper_aapl,
    jsToUpper_sell_lower, oversoldSell]
  simp

/-- Claim C2 counterexample: the claim prescribes FIFO matching against
only the BUY lots not yet consumed by earlier SELLs.  On the history
BUY 10@$10 (date 1), SELL 10@$20 (date 2), BUY 10@$30 (date 3), a new
SELL of 10 at $40 should match the $30 lot (the $10 lot was fully
consumed by the earlier SELL), for a P/L of 100 — but the code walks
ALL BUY trades from the oldest again and stores (40 − 10) × 10 = 300. -/
theorem c2_counterexample :
    sellProfitLoss [buyA1, sellB2, buyC3] "AAPL" 10 40 = 300 ∧
    claimSellPL [buyA1, sellB2, buyC3] "AAPL" 10 40 = 100 ∧
    ¬ ((300 : ℚ) = 100) := by
  refine ⟨?_, ?_, by norm_num⟩
  · norm_num [sellProfitLoss, fifoTotalCost, fifoCost, sortAscByDate,
      List.insertionSort, List.orderedInsert, buyA1, sellB2, buyC3]
  · norm_num [claimSellPL, remainingLots, consumeLots, matchCost,
      sortAscByDate, List.insertionSort, List.orderedInsert,
      buyA1, sellB2, buyC3]

/-- Claim C3 counterexample: on the spec's own example history
(BUY 10@$10, BUY 10@$20, SELL 15@$30) the claim expects the remaining
position to be 5 shares at average cost $20; getUserPortfolio instead
reports 5 shares at average cost $60, because it folds the trades
newest-first. -/
theorem c3_counterexample :
    (getUserPortfolioImpl [buyA1, buyA2, sellA3]).map
      (fun p => (p.totalQuantity, p.avgPrice)) = [(5, 60)] ∧
    ¬ ((60 : ℚ) = 20) := by
  refine ⟨?_, by norm_num⟩
  norm_num [getUserPortfolioImpl, getUserPortfolioFold, sortDescByDate,
    List.insertionSort, List.orderedInsert, stepPortfolio, updatePos,
    initPos, buyA1, buyA2, sellA3]
  simp
  norm_num

/-- Claim C3 amended: on BUY 10@$10, BUY 10@$20, SELL 15@$30 the engine
produces matched cost 200, average buy price 200/15 and realized
profitLoss (30 − 200/15) × 15 = 250 as the claim states, but the
position remaining after the sell, as computed by getUserPortfolio's
newest-first fold, is 5 shares with totalInvestment 300 and average
cost $60 (not $20). -/
theorem c3_fifo_example :
    fifoTotalCost [buyA1, buyA2] "AAPL" 15 = 200 ∧
    stockTrade [buyA1, buyA2] "AAPL" "SELL" 15 "Apple Inc." 30 3 3 =
      .ok ([buyA1, buyA2, sellA3], sellA3) ∧
    sellA3.buyPrice = 200 / 15 ∧
    sellA3.profitLoss = (30 - 200 / 15) * 15 ∧
    getUserPortfolioImpl [buyA1, buyA2, sellA3] =
      [{ symbol := "AAPL", companyName := "Apple Inc.", totalQuantity := 5,
         totalInvestment := 300, avgPrice := 60 }] := by
  refine ⟨?_, ?_, by norm_num [sellA3], by norm_num [sellA3], ?_⟩
  · norm_num [fifoTotalCost, fifoCost, sortAscByDate, List.insertionSort,
      List.orderedInsert, buyA1, buyA2]
  · norm_num [stockTrade, stockPre, fifoTotalCost, fifoCost, sortAscByDate,
      List.insertionSort, List.orderedInsert, mongooseSave, schemaValidate,
      jsToUpper_aapl, jsToUpper_sell_upper, buyA1, buyA2, sellA3]
    simp
  · norm_num [getUserPortfolioImpl, getUserPortfolioFold, sortDescByDate,
      List.insertionSort, List.orderedInsert, stepPortfolio, updatePos,
      initPos, buyA1, buyA2, sellA3]
    simp
    norm_num

/-- Claim C4: the positions returned by the portfolio aggregator are
claimed to equal the fold of the trades in ASCENDING tradeDate order.
The code violates this: getUserPortfolio fetches the trades with
`.sort({ tradeDate: -1 })` and folds them newest-first.  At the failing
input (BUY 10@$10, BUY 10@$20, SELL 15@$30) the code's newest-first fold
yields averagePrice 60 while the ascending fold the claim prescribes
yields 15; the net quantity (5) agrees, being order-independent. -/
theorem c4_descending_fold_eval :
    sortDescByDate [buyA1, buyA2, sellA3] = [sellA3, buyA2, buyA1] ∧
    (getUserPortfolioImpl [buyA1, buyA2, sellA3]).map
      (fun p => (p.totalQuantity, p.avgPrice)) = [(5, 60)] ∧
    (getUserPortfolioAscRef [buyA1, buyA2, sellA3]).map
      (fun p => (p.totalQuantity, p.avgPrice)) = [(5, 15)] ∧
    ¬ ((60 : ℚ) = 15) := by
  refine ⟨?_, ?_, ?_, by norm_num⟩
  · norm_num [sortDescByDate, List.insertionSort, List.orderedInsert,
      buyA1, buyA2, sellA3]
  · norm_num [getUserPortfolioImpl, getUserPortfolioFold, sortDescByDate,
      List.insertionSort, List.orderedInsert, stepPortfolio, updatePos,
      initPos, buyA1, buyA2, sellA3]
    simp
    norm_num
  · norm_num [getUserPortfolioAscRef, sortAscByDate, List.insertionSort,
      List.orderedInsert, stepPortfolio, updatePos, initPos,
      buyA1, buyA2, sellA3]
    simp
    norm_num

/-- Claim C5 counterexample: the claim states every SELL decreases the
position's totalCost by averagePriceBeforeSell × soldQuantity.  In the
GET /api/portfolio fold, a SELL does not touch totalCost at all: after
BUY 10@$10 then SELL 5@$30 the position is 5 shares with totalCost
still 100 (not 100 − 10 × 5 = 50) and averagePrice 20 (not the
preserved 10). -/
theorem c5_counterexample :
    apiFold [buyA1, sellHalf5] =
      ([{ symbol := "AAPL", quantity := 5, totalCost := 100,
          averagePrice := 20 }], 100) ∧
    ¬ ((100 : ℚ) = 100 - 10 * 5) ∧
    ¬ ((20 : ℚ) = 10) := by
  refine ⟨?_, by norm_num, by norm_num⟩
  norm_num [apiFold, apiStep, buyA1, sellHalf5]
  try simp
  try norm_num

/-- Claim C6 counterexample: the claimed winRate divides the winning
SELL count by the number of SELL trades in the window; the code divides
by the number of ALL trades in the window.  With one BUY and one winning
SELL in the window the code reports 50 where the claim requires 100. -/
theorem c6_counterexample :
    (calculateProfitLossStats [buyA1, sellB2] 0 100).winRate = 50 ∧
    specWinRate [buyA1, sellB2] 0 100 = 100 ∧
    ¬ ((50 : ℚ) = 100) := by
  refine ⟨?_, ?_, by norm_num⟩
  · norm_num [calculateProfitLossStats, windowFilter, plStep, buyA1, sellB2]
    try simp
    try norm_num
  · norm_num [specWinRate, windowFilter, buyA1, sellB2]
    try simp
    try norm_num

/-- Claim C7 counterexample: the claim requires a failed symbol's
unrealized contribution to be reported as 0/unknown together with a
flag.  With AAPL quoting at $12 and the MSFT quote failing, the code's
output contains no MSFT entry at all — the symbol is silently dropped
from `positions` and even its invested cost is missing from
`totalInvested` (100 instead of 200); nothing in the payload flags the
failure. -/
theorem c7_counterexample :
    (apiPortfolioRoute [buyA1, buyM2] demoQuote).positions.map
      (fun p => p.symbol) = ["AAPL"] ∧
    (apiPortfolioRoute [buyA1, buyM2] demoQuote).totalInvested = 100 ∧
    (apiPortfolioRoute [buyA1, buyM2] demoQuote).realizedProfit = 0 ∧
    demoQuote "MSFT" = none := by
  refine ⟨?_, ?_, ?_, by simp [demoQuote]⟩ <;>
  · norm_num [apiPortfolioRoute, apiFold, apiStep, buildActive, demoQuote,
      buyA1, buyM2]
    try simp
    try norm_num

/-- Claim C8 counterexample: the claim requires a negative computed
quantity to be surfaced as a data-integrity violation.  For a history
consisting of a single SELL of 5 shares (net quantity −5, which the
missing insufficient-shares check of the stock-trade route can produce),
getUserPortfolio returns the empty list — byte-for-byte the same output
as for an empty portfolio, with no flag or error of any kind. -/
theorem c8_counterexample :
    netQuantity [oversoldSell] "AAPL" = -5 ∧
    getUserPortfolioImpl [oversoldSell] = [] ∧
    getUserPortfolioImpl ([] : List Trade) = [] := by
  refine ⟨?_, ?_, by norm_num [getUserPortfolioImpl, getUserPortfolioFold,
    sortDescByDate, List.insertionSort]⟩
  · norm_num [netQuantity, oversoldSell]
    decide
  · norm_num [getUserPortfolioImpl, getUserPortfolioFold, sortDescByDate,
      List.insertionSort, List.orderedInsert, stepPortfolio, updatePos,
      initPos, oversoldSell]
    simp

/-- Claim C9: deleting a BUY that has been FIFO-matched by a later SELL
must either be disallowed or trigger recomputation of the SELL's
profitLoss.  The code does neither: at the failing input — BUY 10@$10
then SELL 10@$20, whose stored profitLoss 100 is exactly the FIFO value
against that BUY — DELETE /trades/:id removes the BUY without
complaint, and the surviving SELL still carries profitLoss 100 while
the FIFO-matched value over the remaining history is (20 − 0)×10 =
200. -/
theorem c9_delete_no_recompute_eval :
    sellB2.profitLoss = sellProfitLoss [buyA1] "AAPL" 10 20 ∧
    deleteTrade [buyA1, sellB2] 1 = .ok [sellB2] ∧
    sellProfitLoss [sellB2] "AAPL" 10 20 = 200 ∧
    sellB2.profitLoss = 100 ∧
    ¬ ((100 : ℚ) = 200) := by
  refine ⟨?_, ?_, ?_, by norm_num [sellB2], by norm_num⟩
  · norm_num [sellProfitLoss, fifoTotalCost, fifoCost, sortAscByDate,
      List.insertionSort, List.orderedInsert, buyA1, sellB2]
  · norm_num [deleteTrade, buyA1, sellB2]
  · norm_num [sellProfitLoss, fifoTotalCost, fifoCost, sortAscByDate,
      List.insertionSort, List.orderedInsert, sellB2]

/-- Claim C5 amended: the claimed SELL behaviour (quantity reduced by
the sold quantity, totalCost reduced by averagePriceBeforeSell ×
soldQuantity, average cost preserved) holds for
tradeSchema.statics.getUserPortfolio whenever the position's quantity is
positive before and after the sell; averagePrice is recomputed as
totalInvestment/totalQuantity only while the quantity stays positive
(otherwise it retains its previous value rather than being 0).  The
GET /api/portfolio fold does NOT satisfy the claim: its SELL branch
leaves totalCost unchanged (see the counterexample). -/
theorem c5_amended (p : PortfolioPosition) (t : Trade)
    (htype : ¬ t.type = "BUY") (hq : 0 < p.totalQuantity)
    (havg : p.avgPrice = p.totalInvestment / p.totalQuantity)
    (hq' : 0 < p.totalQuantity - t.quantity) :
    (updatePos p t).totalQuantity = p.totalQuantity - t.quantity ∧
    (updatePos p t).totalInvestment =
      p.totalInvestment - t.quantity * p.avgPrice ∧
    (updatePos p t).avgPrice = p.avgPrice := by
  have hQ : p.totalQuantity ≠ 0 := ne_of_gt hq
  have hQ' : p.totalQuantity - t.quantity ≠ 0 := ne_of_gt hq'
  unfold updatePos
  rw [if_neg htype]
  rw [if_pos hq']
  refine ⟨rfl, rfl, ?_⟩
  rw [havg]
  field_simp
  ring

/-- Witness for `c5_amended`: selling 5 of 10 shares held at average
cost $10 leaves 5 shares, investment $50, average cost still $10. -/
theorem c5_amended_witness :
    (updatePos posB4 sellHalf5).totalQuantity = 5 ∧
    (updatePos posB4 sellHalf5).totalInvestment = 50 ∧
    (updatePos posB4 sellHalf5).avgPrice = 10 := by
  have h := c5_amended posB4 sellHalf5 (by decide)
    (by norm_num [posB4]) (by norm_num [posB4])
    (by norm_num [posB4, sellHalf5])
  refine ⟨?_, ?_, ?_⟩
  · rw [h.1]; norm_num [posB4, sellHalf5]
  · rw [h.2.1]; norm_num [posB4, sellHalf5]
  · rw [h.2.2]; norm_num [posB4]

theorem buildActive_failAt (s : String) (quote : String → Option ℚ)
    (ps : List ApiPosition) :
    buildActive (failAt s quote) ps =
      (buildActive quote ps).filter (fun p => !(p.symbol = s)) := by
  induction ps with
  | nil => rfl
  | cons p ps ih =>
      by_cases hq : 0 < p.quantity
      · by_cases hs : p.symbol = s
        · subst hs
          have hfail : failAt p.symbol quote p.symbol = none := by
            simp [failAt]
          cases hcq : quote p.symbol with
          | none => simp [buildActive, hq, hfail, hcq, ih]
          | some c => simp [buildActive, hq, hfail, hcq, ih]
        · have hsame : failAt s quote p.symbol = quote p.symbol := by
            simp [failAt, hs]
          cases hcq : quote p.symbol with
          | none => simp [buildActive, hq, hsame, hcq, ih]
          | some c => simp [buildActive, hq, hsame, hcq, ih, hs]
      · simp [buildActive, hq, ih]

/-- Claim C7 amended: a quote-provider failure for one symbol does not
abort GET /api/portfolio, and leaves the realized figures and every
other symbol's (quantity-positive) position exactly as they would have
been — but the failed symbol is silently omitted from the `positions`
output (and hence contributes nothing to the unrealized totals) instead
of being reported as 0/unknown with a flag: the response for a provider
failing at `s` equals the fully-quoted response with every entry for
`s` filtered out. -/
theorem c7_amended (trades : List Trade) (quote : String → Option ℚ)
    (s : String) :
    (apiPortfolioRoute trades (failAt s quote)).realizedProfit =
      (apiPortfolioRoute trades quote).realizedProfit ∧
    (apiPortfolioRoute trades (failAt s quote)).totalTrades =
      (apiPortfolioRoute trades quote).totalTrades ∧
    (apiPortfolioRoute trades (failAt s quote)).positions =
      (apiPortfolioRoute trades quote).positions.filter
        (fun p => !(p.symbol = s)) := by
  refine ⟨rfl, rfl, ?_⟩
  simp only [apiPortfolioRoute]
  exact buildActive_failAt s quote (apiFold trades).1

theorem plFold_winning (l : List Trade) (a : ℚ × ℚ × ℚ × Nat × Nat) :
    (l.foldl plStep a).2.2.2.1 =
      a.2.2.2.1 +
        l.countP (fun t => t.type = "SELL" && decide ((0 : ℚ) < t.profitLoss)) := by
  induction l generalizing a with
  | nil => simp
  | cons t l ih =>
      rw [List.foldl_cons, ih, List.countP_cons]
      obtain ⟨tp, tl, ti, w, lo⟩ := a
      by_cases hb : t.type = "BUY"
      · simp [plStep, hb]
      · by_cases hsell : t.type = "SELL"
        · by_cases hpl : (0 : ℚ) < t.profitLoss
          · simp [plStep, hb, hsell, hpl]
            omega
          · simp [plStep, hb, hsell, hpl]
        · simp [plStep, hb, hsell]

theorem winRate_eq (trades : List Trade) (startDate endDate : Int) :
    (calculateProfitLossStats trades startDate endDate).winRate =
      (if 0 < (windowFilter trades startDate endDate).length then
        ((((windowFilter trades startDate endDate).foldl plStep
            (0, 0, 0, 0, 0)).2.2.2.1 : ℚ) /
          ((windowFilter trades startDate endDate).length : ℚ)) * 100
      else 0) := rfl

/-- Claim C6 amended: the code's winRate is the number of trades in the
window with a winning SELL profile divided by the number of ALL trades
in the window (not just SELL trades), times 100, and 0 when the window
is empty.  The claim's second half survives: with zero SELL trades in
the window the winRate is still the number 0 — never NaN or an error —
because the winning count is then 0. -/
theorem c6_amended (trades : List Trade) (startDate endDate : Int) :
    ((calculateProfitLossStats trades startDate endDate).winRate =
      (if 0 < (windowFilter trades startDate endDate).length then
        (((windowFilter trades startDate endDate).countP
            (fun t => t.type = "SELL" && decide ((0 : ℚ) < t.profitLoss)) : ℚ) /
          ((windowFilter trades startDate endDate).length : ℚ)) * 100
      else 0)) ∧
    ((windowFilter trades startDate endDate).countP
        (fun t => decide (t.type = "SELL")) = 0 →
      (calculateProfitLossStats trades startDate endDate).winRate = 0) := by
  have hmain : (calculateProfitLossStats trades startDate endDate).winRate =
      (if 0 < (windowFilter trades startDate endDate).length then
        (((windowFilter trades startDate endDate).countP
            (fun t => t.type = "SELL" && decide ((0 : ℚ) < t.profitLoss)) : ℚ) /
          ((windowFilter trades startDate endDate).length : ℚ)) * 100
      else 0) := by
    rw [winRate_eq, plFold_winning]
    simp
  refine ⟨hmain, ?_⟩
  intro h0
  have hle : (windowFilter trades startDate endDate).countP
      (fun t => t.type = "SELL" && decide ((0 : ℚ) < t.profitLoss)) ≤
      (windowFilter trades startDate endDate).countP
        (fun t => decide (t.type = "SELL")) := by
    apply List.countP_mono_left
    intro x _ hx
    simp only [Bool.and_eq_true] at hx
    simpa using hx.1
  have hz : (windowFilter trades startDate endDate).countP
      (fun t => t.type = "SELL" && decide ((0 : ℚ) < t.profitLoss)) = 0 := by
    omega
  rw [hmain, hz]
  simp

/-- Witness for `c6_amended`: a window holding a single BUY has zero
SELL trades, and the winRate is the number 0. -/
theorem c6_amended_witness :
    (calculateProfitLossStats [buyA1] 0 100).winRate = 0 :=
  (c6_amended [buyA1] 0 100).2 (by decide)

theorem matchCost_map_price_quantity (buys : List Trade) (r c : ℚ) :
    matchCost (buys.map (fun t => (t.price, t.quantity))) r c =
      fifoCost buys r c := by
  induction buys generalizing r c with
  | nil => rfl
  | cons t ts ih =>
      simp only [List.map_cons, matchCost, fifoCost]
      by_cases hr : r ≤ 0
      · rw [if_pos hr, if_pos hr]
      · rw [if_neg hr, if_neg hr, ih]

theorem lotFold_all_buys (L : List Trade) (lots : List (ℚ × ℚ))
    (h : ∀ t ∈ L, t.type = "BUY") :
    L.foldl lotStep lots = lots ++ L.map (fun t => (t.price, t.quantity)) := by
  induction L generalizing lots with
  | nil => simp
  | cons t ts ih =>
      rw [List.foldl_cons]
      have ht : t.type = "BUY" := h t (by simp)
      rw [show lotStep lots t = lots ++ [(t.price, t.quantity)] from by
        simp [lotStep, ht]]
      rw [ih _ (fun u hu => h u (by simp [hu]))]
      simp

theorem filter_symbol_buy (trades : List Trade) (symbol : String)
    (hall : ∀ t ∈ trades, t.symbol = symbol → t.type = "BUY") :
    trades.filter (fun t => t.symbol = symbol) =
      trades.filter (fun t => t.symbol = symbol ∧ t.type = "BUY") := by
  apply List.filter_congr
  intro x hx
  by_cases hs : x.symbol = symbol
  · simp [hs, hall x hx hs]
  · simp [hs]

/-- Claim C2 amended: the SELL profit/loss of POST /stocks/:symbol/trade
is the FIFO walk over ALL of the user's BUY trades for the symbol in
ascending tradeDate order — prior SELLs never mark BUY quantity as
consumed — with P/L `(p − totalCost/q) × q`.  This coincides with the
claimed not-yet-consumed-lot matching exactly when the symbol has no
prior SELL (every trade of the symbol is a BUY), the case proved here;
the counterexample shows they differ once a prior SELL exists. -/
theorem c2_amended (trades : List Trade) (symbol : String) (q p : ℚ)
    (hall : ∀ t ∈ trades, t.symbol = symbol → t.type = "BUY") :
    matchCost (remainingLots trades symbol) q 0 =
      fifoTotalCost trades symbol q ∧
    claimSellPL trades symbol q p = sellProfitLoss trades symbol q p := by
  have hfil := filter_symbol_buy trades symbol hall
  have hbuys : ∀ t ∈ sortAscByDate
      (trades.filter (fun t => t.symbol = symbol)), t.type = "BUY" := by
    intro t ht
    have hmem0 : t ∈ trades.filter (fun t => t.symbol = symbol) :=
      ((List.perm_insertionSort _ _).mem_iff).mp ht
    have hmem := List.mem_filter.mp hmem0
    exact hall t hmem.1 (by simpa using hmem.2)
  have hlots : remainingLots trades symbol =
      (sortAscByDate (trades.filter (fun t => t.symbol = symbol))).map
        (fun t => (t.price, t.quantity)) := by
    unfold remainingLots
    rw [lotFold_all_buys _ _ hbuys]
    simp
  have hcost : matchCost (remainingLots trades symbol) q 0 =
      fifoTotalCost trades symbol q := by
    rw [hlots, matchCost_map_price_quantity]
    unfold fifoTotalCost sortAscByDate
    rw [hfil]
  exact ⟨hcost, by unfold claimSellPL sellProfitLoss; rw [hcost]⟩

/-- Witness for `c2_amended`: on the all-BUY history BUY 10@$10,
BUY 10@$20 the claimed unconsumed-lot FIFO and the code's all-lot FIFO
agree for a sell of 15 at $30. -/
theorem c2_amended_witness :
    claimSellPL [buyA1, buyA2] "AAPL" 15 30 =
      sellProfitLoss [buyA1, buyA2] "AAPL" 15 30 :=
  (c2_amended [buyA1, buyA2] "AAPL" 15 30 (by decide)).2

theorem any_congr {α : Type} (l : List α) (p q : α → Bool)
    (h : ∀ x ∈ l, p x = q x) : l.any p = l.any q := by
  induction l with
  | nil => rfl
  | cons x xs ih =>
      simp only [List.any_cons]
      rw [h x (by simp), ih (fun y hy => h y (by simp [hy]))]

theorem any_perm {l₁ l₂ : List Trade} (h : l₁.Perm l₂) (p : Trade → Bool) :
    l₁.any p = l₂.any p := by
  cases hb : l₂.any p
  · rw [List.any_eq_false] at hb ⊢
    intro x hx
    exact hb x (h.mem_iff.mp hx)
  · rw [List.any_eq_true] at hb ⊢
    obtain ⟨x, hx, hpx⟩ := hb
    exact ⟨x, h.mem_iff.mpr hx, hpx⟩

theorem updatePos_symbol (p : PortfolioPosition) (t : Trade) :
    (updatePos p t).symbol = p.symbol := by
  simp only [updatePos]
  split <;> split <;> rfl

theorem updatePos_totalQuantity (p : PortfolioPosition) (t : Trade) :
    (updatePos p t).totalQuantity =
      p.totalQuantity + (if t.type = "BUY" then t.quantity else -t.quantity) := by
  simp only [updatePos]
  by_cases hb : t.type = "BUY" <;> simp [hb] <;> split <;> simp <;> ring

theorem stepPortfolio_any (acc : List PortfolioPosition) (t : Trade)
    (sym : String) :
    (stepPortfolio acc t).any (fun p => p.symbol = sym) =
      (acc.any (fun p => p.symbol = sym) || decide (t.symbol = sym)) := by
  unfold stepPortfolio
  by_cases hf : acc.any (fun p => p.symbol = t.symbol)
  · rw [if_pos hf]
    have hmap :
        (acc.map (fun p => if p.symbol = t.symbol then updatePos p t else p)).any
            (fun p => p.symbol = sym) =
          acc.any (fun p => p.symbol = sym) := by
      rw [List.any_map]
      apply any_congr
      intro q _
      by_cases hq : q.symbol = t.symbol <;>
        simp [Function.comp, hq, updatePos_symbol]
    rw [hmap]
    by_cases hts : t.symbol = sym
    · have hsymany : acc.any (fun p => p.symbol = sym) = true := by
        subst hts; exact hf
      simp [hsymany]
    · simp [hts]
  · rw [if_neg hf]
    rw [List.any_append]
    simp [updatePos_symbol, initPos]

theorem netQuantity_append_single (L : List Trade) (t : Trade) (sym : String) :
    netQuantity (L ++ [t]) sym =
      netQuantity L sym +
        (if t.symbol = sym then
          (if t.type = "BUY" then t.quantity else -t.quantity) else 0) := by
  unfold netQuantity
  rw [List.filter_append, List.map_append, List.sum_append]
  by_cases hs : t.symbol = sym <;> simp [hs]

theorem netQuantity_eq_zero_of_not_any (L : List Trade) (sym : String)
    (h : L.any (fun t => t.symbol = sym) = false) : netQuantity L sym = 0 := by
  unfold netQuantity
  rw [List.any_eq_false] at h
  have hnil : L.filter (fun t => t.symbol = sym) = [] := by
    rw [List.filter_eq_nil_iff]
    intro a ha
    exact h a ha
  rw [hnil]
  rfl

theorem netQuantity_perm {l₁ l₂ : List Trade} (h : l₁.Perm l₂) (sym : String) :
    netQuantity l₁ sym = netQuantity l₂ sym := by
  unfold netQuantity
  exact ((h.filter _).map _).sum_eq

theorem foldPortfolio_any (L : List Trade) (sym : String) :
    (L.foldl stepPortfolio []).any (fun p => p.symbol = sym) =
      L.any (fun t => t.symbol = sym) := by
  induction L using List.reverseRecOn with
  | nil => rfl
  | append_singleton L t ih =>
      rw [List.foldl_append, List.foldl_cons, List.foldl_nil,
        stepPortfolio_any, ih, List.any_append]
      simp

theorem foldPortfolio_quantity (L : List Trade) :
    ∀ p ∈ L.foldl stepPortfolio [], p.totalQuantity = netQuantity L p.symbol := by
  induction L using List.reverseRecOn with
  | nil => intro p hp; simp at hp
  | append_singleton L t ih =>
      intro p hp
      rw [List.foldl_append, List.foldl_cons, List.foldl_nil] at hp
      rw [netQuantity_append_single]
      set acc := L.foldl stepPortfolio [] with hacc
      unfold stepPortfolio at hp
      by_cases hf : acc.any (fun q => q.symbol = t.symbol)
      · rw [if_pos hf] at hp
        obtain ⟨q, hq, hpq⟩ := List.mem_map.mp hp
        by_cases hqs : q.symbol = t.symbol
        · rw [if_pos hqs] at hpq
          have hsym : p.symbol = q.symbol := by
            rw [← hpq]; exact updatePos_symbol q t
          have hqty : p.totalQuantity =
              q.totalQuantity +
                (if t.type = "BUY" then t.quantity else -t.quantity) := by
            rw [← hpq]; exact updatePos_totalQuantity q t
          rw [hqty, ih q hq, hsym, hqs, if_pos rfl]
        · rw [if_neg hqs] at hpq
          subst hpq
          rw [if_neg (fun hc => hqs hc.symm), add_zero]
          exact ih q hq
      · rw [if_neg hf] at hp
        have hf2 : acc.any (fun q => q.symbol = t.symbol) = false := by
          simpa using hf
        rcases List.mem_append.mp hp with hin | hnew
        · have hne : ¬ t.symbol = p.symbol := by
            intro hc
            rw [List.any_eq_false] at hf2
            exact hf2 p hin (by simp [hc])
          rw [if_neg hne, add_zero]
          exact ih p hin
        · have hpnew : p = updatePos (initPos t) t := by
            simpa using hnew
          have hsym : p.symbol = t.symbol := by
            rw [hpnew, updatePos_symbol]; rfl
          have hL : L.any (fun u => u.symbol = t.symbol) = false := by
            rw [← foldPortfolio_any, ← hacc]
            exact hf2
          have hnet : netQuantity L p.symbol = 0 := by
            rw [hsym]
            exact netQuantity_eq_zero_of_not_any L t.symbol hL
          have hqty : p.totalQuantity =
              (if t.type = "BUY" then t.quantity else -t.quantity) := by
            rw [hpnew, updatePos_totalQuantity]
            simp [initPos]
          rw [hnet, hqty, hsym, if_pos rfl, zero_add]

/-- Claim C8 amended: the active-holdings output of getUserPortfolio
contains an entry for a symbol exactly when the symbol occurs in the
trade history with strictly positive net signed quantity, and every
entry carries that net quantity.  Symbols netting to zero AND symbols
netting negative are both silently dropped — a negative net quantity is
never flagged, surfaced or distinguished from an empty portfolio (see
the counterexample). -/
theorem c8_amended (trades : List Trade) (sym : String) :
    (((getUserPortfolioImpl trades).any (fun p => p.symbol = sym)) = true ↔
      ((trades.any (fun t => t.symbol = sym)) = true ∧
        0 < netQuantity trades sym)) ∧
    (∀ p ∈ getUserPortfolioImpl trades,
      p.totalQuantity = netQuantity trades p.symbol ∧ 0 < p.totalQuantity) := by
  have hperm : (sortDescByDate trades).Perm trades :=
    List.perm_insertionSort _ _
  simp only [getUserPortfolioImpl, getUserPortfolioFold]
  constructor
  · constructor
    · intro h
      obtain ⟨p, hp, hps⟩ := List.any_eq_true.mp h
      have hpf := List.mem_filter.mp hp
      have hq := foldPortfolio_quantity _ p hpf.1
      have hpos : 0 < p.totalQuantity := by simpa using hpf.2
      have hsym : p.symbol = sym := by simpa using hps
      constructor
      · rw [← any_perm hperm]
        rw [← foldPortfolio_any]
        exact List.any_eq_true.mpr ⟨p, hpf.1, hps⟩
      · rw [← netQuantity_perm hperm, ← hsym, ← hq]
        exact hpos
    · rintro ⟨hocc, hpos⟩
      have hdesc : (sortDescByDate trades).any (fun t => t.symbol = sym) = true := by
        rw [any_perm hperm]
        exact hocc
      have hfold : ((sortDescByDate trades).foldl stepPortfolio []).any
          (fun p => p.symbol = sym) = true := by
        rw [foldPortfolio_any]
        exact hdesc
      obtain ⟨p, hp, hps⟩ := List.any_eq_true.mp hfold
      have hq := foldPortfolio_quantity _ p hp
      have hsym : p.symbol = sym := by simpa using hps
      have hqty : p.totalQuantity = netQuantity trades sym := by
        rw [hq, hsym, netQuantity_perm hperm]
      refine List.any_eq_true.mpr ⟨p, List.mem_filter.mpr ⟨hp, ?_⟩, hps⟩
      simp [hqty]
      exact hpos
  · intro p hp
    have hpf := List.mem_filter.mp hp
    have hq := foldPortfolio_quantity _ p hpf.1
    exact ⟨by rw [hq, netQuantity_perm hperm], by simpa using hpf.2⟩

/-- Witness for `c8_amended`: after a single BUY of 10 AAPL shares the
active holdings contain an AAPL entry (occurrence with positive net
quantity). -/
theorem c8_amended_witness :
    ((getUserPortfolioImpl [buyA1]).any (fun p => p.symbol = "AAPL")) = true :=
  (c8_amended [buyA1] "AAPL").1.mpr
    ⟨by decide, by norm_num [netQuantity, buyA1]⟩

theorem mongooseSave_fields (pre t' : Trade) (h : mongooseSave pre = some t') :
    jsToUpper t'.symbol = t'.symbol ∧ t'.type = pre.type ∧
    t'.quantity = pre.quantity ∧ t'.profitLoss = pre.profitLoss ∧
    (t'.type = "BUY" ∨ t'.type = "SELL") ∧ (1 : ℚ) ≤ t'.quantity := by
  unfold mongooseSave at h
  split at h
  case isTrue hv =>
    have ht' : { pre with symbol := jsToUpper pre.symbol } = t' :=
      Option.some.inj h
    subst ht'
    simp only [schemaValidate, Bool.and_eq_true, Bool.or_eq_true,
      decide_eq_true_eq] at hv
    refine ⟨jsToUpper_idem pre.symbol, rfl, rfl, rfl, ?_, ?_⟩
    · exact hv.1.1.1.1.1
    · exact hv.1.1.1.1.2
  case isFalse hv => exact absurd h (by simp)

theorem simulatePre_profitLoss_not_sell (trades : List Trade)
    (s a cn : String) (q : Int) (p : ℚ) (d : Int) (i : Nat)
    (h : ¬ jsToUpper a = "SELL") :
    (simulatePre trades s a q p cn d i).profitLoss = 0 := by
  simp only [simulatePre]
  rw [if_neg h]

theorem stockPre_quantity (trades : List Trade) (s ty : String) (q : ℚ)
    (pn : String) (cp : ℚ) (d : Int) (i : Nat) :
    (stockPre trades s ty q pn cp d i).quantity = ((⌊q⌋ : ℤ) : ℚ) := by
  simp only [stockPre]
  split <;> rfl

theorem stockPre_type (trades : List Trade) (s ty : String) (q : ℚ)
    (pn : String) (cp : ℚ) (d : Int) (i : Nat) :
    (stockPre trades s ty q pn cp d i).type = jsToUpper ty := by
  simp only [stockPre]
  split <;> rfl

theorem stockPre_profitLoss_not_sell (trades : List Trade) (s ty : String)
    (q : ℚ) (pn : String) (cp : ℚ) (d : Int) (i : Nat)
    (h : ¬ jsToUpper ty = "SELL") :
    (stockPre trades s ty q pn cp d i).profitLoss = 0 := by
  simp only [stockPre]
  rw [if_neg h]

/-- Claim C10: every Trade record that either trade-creation endpoint
actually stores satisfies the schema invariant — uppercase symbol
(a fixed point of uppercasing), integer quantity of at least 1, type
exactly BUY or SELL, and profitLoss 0 on a BUY.  For POST
/trades/simulate this rests on the route's `parseInt`/positivity
validation; for POST /stocks/:symbol/trade a fractional raw quantity
below 1 truncates to 0 and the save is rejected by the schema's
`min: 1`, so no violating record is ever created. -/
theorem c10_schema_invariant
    (trades : List Trade) (s1 a1 cn : String) (q1 : Int) (p1 : ℚ)
    (d1 : Int) (i1 : Nat) (ts1 : List Trade) (t1 : Trade)
    (s2 ty2 pn : String) (q2 cp : ℚ) (d2 : Int) (i2 : Nat)
    (ts2 : List Trade) (t2 : Trade) :
    (simulateTrade trades s1 a1 q1 p1 cn d1 i1 = .ok (ts1, t1) →
      tradeInvariant t1) ∧
    (stockTrade trades s2 ty2 q2 pn cp d2 i2 = .ok (ts2, t2) →
      tradeInvariant t2) := by
  constructor
  · intro h
    unfold simulateTrade at h
    split at h
    · simp at h
    · split at h
      · simp at h
      · split at h
        case h_1 t' heq =>
          have ht1 : t' = t1 := congrArg Prod.snd (Except.ok.inj h)
          subst ht1
          obtain ⟨hup, htype, hqty, hpl, henum, hmin⟩ :=
            mongooseSave_fields _ _ heq
          have hqcast : t'.quantity = ((q1 : ℤ) : ℚ) := hqty
          have htype' : t'.type = jsToUpper a1 := htype
          refine ⟨hup, ⟨q1, hqcast, ?_⟩, henum, ?_⟩
          · rw [hqcast] at hmin
            exact_mod_cast hmin
          · intro hbuy
            have ha : jsToUpper a1 = "BUY" := htype'.symm.trans hbuy
            have hns : ¬ jsToUpper a1 = "SELL" := by
              rw [ha]; decide
            rw [hpl, simulatePre_profitLoss_not_sell _ _ _ _ _ _ _ _ hns]
        case h_2 heq => simp at h
  · intro h
    unfold stockTrade at h
    split at h
    · simp at h
    · split at h
      case h_1 t' heq =>
        have ht2 : t' = t2 := congrArg Prod.snd (Except.ok.inj h)
        subst ht2
        obtain ⟨hup, htype, hqty, hpl, henum, hmin⟩ :=
          mongooseSave_fields _ _ heq
        have hqcast : t'.quantity = ((⌊q2⌋ : ℤ) : ℚ) := by
          rw [hqty, stockPre_quantity]
        refine ⟨hup, ⟨⌊q2⌋, hqcast, ?_⟩, henum, ?_⟩
        · rw [hqcast] at hmin
          exact_mod_cast hmin
        · intro hbuy
          have hty : jsToUpper ty2 = "BUY" :=
            ((htype.trans (stockPre_type _ _ _ _ _ _ _ _)).symm).trans hbuy
          have hns : ¬ jsToUpper ty2 = "SELL" := by
            rw [hty]; decide
          rw [hpl, stockPre_profitLoss_not_sell _ _ _ _ _ _ _ _ hns]
      case h_2 heq => simp at h

/-- Witness for `c10_schema_invariant`: a concrete successful creation
through each endpoint, whose stored records satisfy the invariant. -/
theorem c10_schema_invariant_witness :
    tradeInvariant simBuy3 ∧ tradeInvariant stockBuy2 :=
  ⟨(c10_schema_invariant [] "aapl" "buy" "Apple" 3 5 7 1 [simBuy3] simBuy3
      "msft" "buy" "Microsoft" (5/2) 4 9 2 [stockBuy2] stockBuy2).1
    (by
      norm_num [simulateTrade, simulatePre, netShares, sortAscByDate,
        List.insertionSort, mongooseSave, schemaValidate, jsToUpper_buy_lower,
        jsToUpper_aapl_lower, jsToUpper_aapl, simBuy3]
      try simp [jsToUpper_aapl]
      try norm_num),
   (c10_schema_invariant [] "aapl" "buy" "Apple" 3 5 7 1 [simBuy3] simBuy3
      "msft" "buy" "Microsoft" (5/2) 4 9 2 [stockBuy2] stockBuy2).2
    (by
      norm_num [stockTrade, stockPre, fifoTotalCost, fifoCost, sortAscByDate,
        List.insertionSort, mongooseSave, schemaValidate, jsToUpper_buy_lower,
        jsToUpper_msft_lower, jsToUpper_msft, stockBuy2]
      try simp [jsToUpper_msft]
      try norm_num)⟩

end FinCraft
